import Mathlib

/-!
# Verification of `recrepo` (recrepo.py)

A shallow embedding of `recrepo.py`, the tool that records the status of git
repositories into a JSON file and asserts that they are clean.  The external
`git` invocations performed by `repostate` are abstracted by an environment
`GitEnv` mapping each input pointer to the raw textual outputs of the four
git queries; everything downstream of those raw strings is translated
directly from the Python source.
-/

namespace Recrepo

/-- The whitespace characters stripped by Python's `str.strip()` /
`str.rstrip()` (the ASCII fragment; the git outputs involved are ASCII). -/
def isPySpace (c : Char) : Bool :=
  c = ' ' || c = '\t' || c = '\n' || c = '\r' || c = '\x0b' || c = '\x0c'

/-- Python `s.strip()`: remove leading and trailing whitespace. -/
def pyStrip (s : String) : String :=
  String.mk (((s.data.dropWhile isPySpace).reverse.dropWhile isPySpace).reverse)

/-- Python `s.rstrip()`: remove trailing whitespace. -/
def pyRstrip (s : String) : String :=
  String.mk ((s.data.reverse.dropWhile isPySpace).reverse)

/-- Line-break characters recognised by Python's `str.splitlines()`. -/
def isLineBreak (c : Char) : Bool :=
  c = '\n' || c = '\r' || c = '\x0b' || c = '\x0c' ||
    c = '\x1c' || c = '\x1d' || c = '\x1e' || c = '\x85' ||
    c = '\u2028' || c = '\u2029'

/-- Worker for `splitlines`: `acc` is the (reversed) current line. -/
def splitlinesAux : List Char → List Char → List String
  | [], acc => if acc.isEmpty then [] else [String.mk acc.reverse]
  | '\r' :: '\n' :: rest, acc => String.mk acc.reverse :: splitlinesAux rest []
  | c :: rest, acc =>
      if isLineBreak c then String.mk acc.reverse :: splitlinesAux rest []
      else splitlinesAux rest (c :: acc)

/-- Python `s.splitlines()`: split at line boundaries, no trailing empty
line for a trailing terminator. -/
def splitlines (s : String) : List String := splitlinesAux s.data []

/-- Concatenation of a list of strings. -/
def strConcat : List String → String
  | [] => ""
  | s :: rest => s ++ strConcat rest

/-- The raw stdout texts of the four git queries `repostate` runs for one
pointer: `git status --short`, `git status --short --untracked-files=no`,
`git rev-parse HEAD`, `git rev-parse --show-toplevel`. -/
structure GitOutput where
  status : String
  statusTracked : String
  revParseHead : String
  revParseToplevel : String
deriving DecidableEq

/-- The abstracted git environment: what each query returns for a pointer
(after the path resolution done at the top of `repostate`). -/
def GitEnv : Type := String → GitOutput

/-- The `RepoState` namedtuple, fields in source order. -/
structure RepoState where
  is_clean : Bool
  is_clean_tracked : Bool
  status : String
  status_tracked : String
  revision : String
  toplevel : String
deriving DecidableEq

/-- `repostate(pointer)`: build a `RepoState` from the four git outputs. -/
def repostate (env : GitEnv) (pointer : String) : RepoState :=
  let out := env pointer
  { is_clean := pyStrip out.status == ""
    is_clean_tracked := pyStrip out.statusTracked == ""
    status := out.status
    status_tracked := out.statusTracked
    revision := pyStrip out.revParseHead
    toplevel := pyRstrip out.revParseToplevel }

/-- JSON-serialisable values occurring in an output record. -/
inductive JVal where
  | bool : Bool → JVal
  | str : String → JVal
deriving DecidableEq

/-- An output record: the ordered key/value dictionary `state._asdict()`
after the deletions in `to_record`. -/
abbrev Record : Type := List (String × JVal)

/-- `to_record(state)`: the `_asdict()` of the namedtuple (keys in field
order) with `status` and `status_tracked` deleted. -/
def to_record (state : RepoState) : Record :=
  [("is_clean", JVal.bool state.is_clean),
   ("is_clean_tracked", JVal.bool state.is_clean_tracked),
   ("revision", JVal.str state.revision),
   ("toplevel", JVal.str state.toplevel)]

/-- Lexicographic comparison of char lists by code point, as Python
compares strings. -/
def charListLt : List Char → List Char → Bool
  | [], [] => false
  | [], _ :: _ => true
  | _ :: _, [] => false
  | a :: as, b :: bs => if a < b then true else if b < a then false else charListLt as bs

/-- Python's `<` on strings. -/
def pyStrLt (a b : String) : Bool := charListLt a.data b.data

/-- Stable insertion of a pair into a key-sorted record (helper for
`sortKeysRecord`). -/
def insertByKey (x : String × JVal) : Record → Record
  | [] => [x]
  | y :: ys => if pyStrLt y.1 x.1 then y :: insertByKey x ys else x :: y :: ys

/-- The key sort performed by `json.dump(..., sort_keys=True)` on one
object: a stable sort of the pairs by key. -/
def sortKeysRecord (r : Record) : Record := r.foldr insertByKey []

/-- The `DirtyRepositories` exception: the collected `RepoState`s and the
`tracked` flag (defaulting to `False` in the source). -/
structure DirtyRepositories where
  repos : List RepoState
  tracked : Bool := false
deriving DecidableEq

/-- Exit status when there is an un-clean repository. -/
def DirtyRepositories.CODE : Nat := 113

/-- One `print(...)` to the `StringIO` buffer: append the text and a
newline. -/
def printTo (io : String) (line : String) : String := io ++ line ++ "\n"

/-- `DirtyRepositories.__str__`: filter the repositories by the predicate
selected by `tracked`, then render the report into a string buffer. -/
def DirtyRepositories.str (e : DirtyRepositories) : String :=
  let repos := if e.tracked then e.repos.filter (fun r => !r.is_clean_tracked)
               else e.repos.filter (fun r => !r.is_clean)
  let io := printTo ""
    (toString repos.length ++ " dirty " ++
      (if repos.length > 1 then "repositories" else "repository") ++ " found:")
  let io := repos.foldl (fun io r =>
    let io := printTo io ""
    let io := printTo io ("* " ++ r.toplevel ++ " @ " ++ r.revision)
    let status := if e.tracked then r.status_tracked else r.status
    (splitlines status).foldl (fun io l => printTo io ("|  " ++ " " ++ l)) io) io
  let io := printTo io ""
  io ++ "Aborting..."

/-- `recrepo(pointers, ignore_dirty, ignore_untracked)`: inspect every
pointer, apply the dirtiness policy, and either raise `DirtyRepositories`
(the source raises `DirtyRepositories(repos)`, leaving `tracked` at its
default `False`, in both branches) or return the records. -/
def recrepo (env : GitEnv) (pointers : List String)
    (ignore_dirty ignore_untracked : Bool) :
    Except DirtyRepositories (List Record) :=
  let repos := pointers.map (repostate env)
  if ignore_dirty then
    Except.ok (repos.map to_record)
  else if ignore_untracked then
    if !(repos.all fun r => r.is_clean_tracked) then
      Except.error { repos := repos }
    else
      Except.ok (repos.map to_record)
  else if !(repos.all fun r => r.is_clean) then
    Except.error { repos := repos }
  else
    Except.ok (repos.map to_record)

/-- Observable outcome of one `cli` run: the process exit code, what was
printed to stderr, and the destination opened for writing together with
the serialised records (`json.dump` sorts each object's keys; the
indentation chosen by `pretty` only affects whitespace, which this model
abstracts). `fileWritten = none` means the destination was never opened. -/
structure CliOutcome where
  exitCode : Nat
  stderrText : Option String
  fileWritten : Option (String × List Record)
deriving DecidableEq

/-- `cli(output, pretty, **kwargs)`: run `recrepo`; on success open the
destination and dump the records with sorted keys; on `DirtyRepositories`
print the report to stderr and exit with `DirtyRepositories.CODE`. -/
def cli (env : GitEnv) (output : String) (pretty : Bool)
    (pointers : List String) (ignore_dirty ignore_untracked : Bool) :
    CliOutcome :=
  let _ := pretty
  match recrepo env pointers ignore_dirty ignore_untracked with
  | Except.ok records =>
      { exitCode := 0
        stderrText := none
        fileWritten := some (output, records.map sortKeysRecord) }
  | Except.error err =>
      { exitCode := DirtyRepositories.CODE
        stderrText := some err.str
        fileWritten := none }

/-- The failure report as the specification describes it (for comparison
with `DirtyRepositories.str`): a header line with the count of offending
repositories and the pluralized noun, then for each offending repository a
blank line, a line `* <toplevel> @ <revision>`, each line of its status
text indented and prefixed, then a trailing blank line and `Aborting...`
with no trailing newline. -/
def specReport (tracked : Bool) (repos : List RepoState) : String :=
  let offenders := repos.filter fun r =>
    !(if tracked then r.is_clean_tracked else r.is_clean)
  toString offenders.length ++ " dirty " ++
    (if offenders.length = 1 then "repository" else "repositories") ++
    " found:\n" ++
  strConcat (offenders.map fun r =>
    "\n" ++ "* " ++ r.toplevel ++ " @ " ++ r.revision ++ "\n" ++
      strConcat ((splitlines (if tracked then r.status_tracked else r.status)).map
        fun l => "|   " ++ l ++ "\n")) ++
  "\n" ++ "Aborting..."

/-! ## Concrete git environments used by the witnesses -/

/-- A clean repository: both status queries empty. -/
def cleanGit : GitOutput :=
  { status := ""
    statusTracked := ""
    revParseHead := "1111111111111111111111111111111111111111\n"
    revParseToplevel := "/repo/clean\n" }

/-- A repository with only an untracked file: combined status non-empty,
tracked-only status empty. -/
def untrackedGit : GitOutput :=
  { status := "?? spam\n"
    statusTracked := ""
    revParseHead := "2222222222222222222222222222222222222222\n"
    revParseToplevel := "/repo/untracked\n" }

/-- A repository with a modified tracked file: both status queries
non-empty. -/
def trackedDirtyGit : GitOutput :=
  { status := " M file\n"
    statusTracked := " M file\n"
    revParseHead := "3333333333333333333333333333333333333333\n"
    revParseToplevel := "/repo/tracked\n" }

/-- Witness environment: pointer `"clean"` names a clean repository,
`"untracked"` one with only an untracked file, anything else one with a
modified tracked file. -/
def envW : GitEnv := fun p =>
  if p = "clean" then cleanGit
  else if p = "untracked" then untrackedGit
  else trackedDirtyGit

/-! ## Unfolding lemmas for `recrepo` at each policy -/

/-- `recrepo` under the strict (default) policy. -/
theorem recrepo_eq_strict (env : GitEnv) (pointers : List String) :
    recrepo env pointers false false =
      (if !((pointers.map (repostate env)).all fun r => r.is_clean) then
        Except.error { repos := pointers.map (repostate env) }
      else
        Except.ok ((pointers.map (repostate env)).map to_record)) := rfl

/-- `recrepo` under the ignore-untracked policy. -/
theorem recrepo_eq_ignore_untracked (env : GitEnv) (pointers : List String) :
    recrepo env pointers false true =
      (if !((pointers.map (repostate env)).all fun r => r.is_clean_tracked) then
        Except.error { repos := pointers.map (repostate env) }
      else
        Except.ok ((pointers.map (repostate env)).map to_record)) := rfl

/-- `recrepo` under the ignore-dirty policy, whatever `ignore_untracked`
is. -/
theorem recrepo_eq_ignore_dirty (env : GitEnv) (pointers : List String)
    (ignore_untracked : Bool) :
    recrepo env pointers true ignore_untracked =
      Except.ok ((pointers.map (repostate env)).map to_record) := by
  cases ignore_untracked <;> rfl

/-! ## C10: empty input list -/

/-- C10: for the empty list of pointers, `recrepo` raises nothing under
every policy combination and returns the empty list of records. -/
theorem recrepo_empty_pointers (env : GitEnv) (ignore_dirty ignore_untracked : Bool) :
    recrepo env [] ignore_dirty ignore_untracked = Except.ok [] := by
  cases ignore_dirty <;> cases ignore_untracked <;> rfl

/-! ## C4: ignore-dirty policy -/

/-- C4: under the ignore-dirty policy `recrepo` never raises
`DirtyRepositories` and always returns one record per input, and this
holds for either value of `ignore_untracked` (the full-ignore check wins,
the untracked check is not evaluated). -/
theorem ignore_dirty_never_fails (env : GitEnv) (pointers : List String)
    (ignore_untracked : Bool) :
    recrepo env pointers true ignore_untracked =
      Except.ok ((pointers.map (repostate env)).map to_record) ∧
    ((pointers.map (repostate env)).map to_record).length = pointers.length := by
  refine ⟨recrepo_eq_ignore_dirty env pointers ignore_untracked, ?_⟩
  simp

/-! ## C2: strict policy -/

/-- C2: under the strict (default) policy, `recrepo` raises
`DirtyRepositories` if and only if at least one inspected repository has
`is_clean = false`; when no repository is dirty it returns the list of
output records. -/
theorem strict_policy_iff (env : GitEnv) (pointers : List String) :
    ((∃ e, recrepo env pointers false false = Except.error e) ↔
       ∃ p ∈ pointers, (repostate env p).is_clean = false) ∧
    ((∀ p ∈ pointers, (repostate env p).is_clean = true) →
       recrepo env pointers false false =
         Except.ok ((pointers.map (repostate env)).map to_record)) := by
  rcases hall : (pointers.map (repostate env)).all fun r => r.is_clean with _ | _
  · rw [List.all_eq_false] at hall
    obtain ⟨r, hr, hcl⟩ := hall
    obtain ⟨p, hp, rfl⟩ := List.mem_map.mp hr
    constructor
    · refine ⟨fun _ => ⟨p, hp, by simpa using hcl⟩, fun _ => ?_⟩
      rw [recrepo_eq_strict]
      rw [List.all_eq_false.mpr ⟨repostate env p, List.mem_map.mpr ⟨p, hp, rfl⟩, hcl⟩]
      exact ⟨_, rfl⟩
    · intro hclean
      exact absurd (hclean p hp) (by simpa using hcl)
  · rw [List.all_eq_true] at hall
    constructor
    · constructor
      · rintro ⟨e, he⟩
        rw [recrepo_eq_strict, List.all_eq_true.mpr hall] at he
        simp at he
      · rintro ⟨p, hp, hcl⟩
        exact absurd (hall _ (List.mem_map.mpr ⟨p, hp, rfl⟩)) (by simpa using hcl)
    · intro _
      rw [recrepo_eq_strict, List.all_eq_true.mpr hall]
      rfl

/-- Witness for C2: one repository with an untracked file makes the strict
policy raise, and one clean repository makes it return its record. -/
theorem strict_policy_iff_witness :
    (∃ e, recrepo envW ["untracked"] false false = Except.error e) ∧
      recrepo envW ["clean"] false false =
        Except.ok ((["clean"].map (repostate envW)).map to_record) :=
  ⟨(strict_policy_iff envW ["untracked"]).1.mpr ⟨"untracked", by simp, by decide⟩,
   (strict_policy_iff envW ["clean"]).2 (by intro p hp; simp at hp; subst hp; decide)⟩

/-! ## C3: ignore-untracked policy -/

/-- C3: under the ignore-untracked policy, `recrepo` raises
`DirtyRepositories` if and only if at least one repository has
`is_clean_tracked = false`; when every repository is tracked-clean (in
particular when some have only untracked files) it returns the records. -/
theorem ignore_untracked_policy_iff (env : GitEnv) (pointers : List String) :
    ((∃ e, recrepo env pointers false true = Except.error e) ↔
       ∃ p ∈ pointers, (repostate env p).is_clean_tracked = false) ∧
    ((∀ p ∈ pointers, (repostate env p).is_clean_tracked = true) →
       recrepo env pointers false true =
         Except.ok ((pointers.map (repostate env)).map to_record)) := by
  rcases hall : (pointers.map (repostate env)).all fun r => r.is_clean_tracked with _ | _
  · rw [List.all_eq_false] at hall
    obtain ⟨r, hr, hcl⟩ := hall
    obtain ⟨p, hp, rfl⟩ := List.mem_map.mp hr
    constructor
    · refine ⟨fun _ => ⟨p, hp, by simpa using hcl⟩, fun _ => ?_⟩
      rw [recrepo_eq_ignore_untracked]
      rw [List.all_eq_false.mpr ⟨repostate env p, List.mem_map.mpr ⟨p, hp, rfl⟩, hcl⟩]
      exact ⟨_, rfl⟩
    · intro hclean
      exact absurd (hclean p hp) (by simpa using hcl)
  · rw [List.all_eq_true] at hall
    constructor
    · constructor
      · rintro ⟨e, he⟩
        rw [recrepo_eq_ignore_untracked, List.all_eq_true.mpr hall] at he
        simp at he
      · rintro ⟨p, hp, hcl⟩
        exact absurd (hall _ (List.mem_map.mpr ⟨p, hp, rfl⟩)) (by simpa using hcl)
    · intro _
      rw [recrepo_eq_ignore_untracked, List.all_eq_true.mpr hall]
      rfl

/-- Witness for C3: a repository with only untracked files does not make
the ignore-untracked policy raise, while one with a modified tracked file
does. -/
theorem ignore_untracked_policy_witness :
    recrepo envW ["untracked"] false true =
        Except.ok ((["untracked"].map (repostate envW)).map to_record) ∧
      (∃ e, recrepo envW ["tracked"] false true = Except.error e) :=
  ⟨(ignore_untracked_policy_iff envW ["untracked"]).2
      (by intro p hp; simp at hp; subst hp; decide),
   (ignore_untracked_policy_iff envW ["tracked"]).1.mpr ⟨"tracked", by simp, by decide⟩⟩

/-! ## C5: shape of the output records -/

/-- The sorted key list of every output record. -/
theorem to_record_keys (s : RepoState) :
    (to_record s).map Prod.fst =
      ["is_clean", "is_clean_tracked", "revision", "toplevel"] := rfl

/-- `json.dump`'s key sort leaves an output record unchanged: its keys are
already in sorted order. -/
theorem sortKeysRecord_to_record (s : RepoState) :
    sortKeysRecord (to_record s) = to_record s := rfl

/-- C5: on every successful run the output holds exactly one record per
input pointer, in input order; each record has exactly the keys
`is_clean`, `is_clean_tracked`, `revision`, `toplevel` (the two raw
status fields are stripped), the keys are in sorted order (so the
serializer's key sort is the identity on them), and each key's value is
the corresponding field of that pointer's `RepoState`. -/
theorem output_records_shape (env : GitEnv) (pointers : List String)
    (ignore_dirty ignore_untracked : Bool) (records : List Record)
    (h : recrepo env pointers ignore_dirty ignore_untracked = Except.ok records) :
    records = pointers.map (fun p => to_record (repostate env p)) ∧
    ∀ p ∈ pointers,
      (to_record (repostate env p)).map Prod.fst =
          ["is_clean", "is_clean_tracked", "revision", "toplevel"] ∧
      List.Chain' (fun a b => pyStrLt a b = true)
          ((to_record (repostate env p)).map Prod.fst) ∧
      sortKeysRecord (to_record (repostate env p)) = to_record (repostate env p) ∧
      (to_record (repostate env p)).lookup "is_clean" =
          some (JVal.bool (repostate env p).is_clean) ∧
      (to_record (repostate env p)).lookup "is_clean_tracked" =
          some (JVal.bool (repostate env p).is_clean_tracked) ∧
      (to_record (repostate env p)).lookup "revision" =
          some (JVal.str (repostate env p).revision) ∧
      (to_record (repostate env p)).lookup "toplevel" =
          some (JVal.str (repostate env p).toplevel) := by
  constructor
  · have hrec : records = (pointers.map (repostate env)).map to_record := by
      cases ignore_dirty
      · cases ignore_untracked
        · rw [recrepo_eq_strict] at h
          rcases hall : (pointers.map (repostate env)).all fun r => r.is_clean with _ | _
          · rw [hall] at h; simp at h
          · rw [hall] at h; simpa using h.symm
        · rw [recrepo_eq_ignore_untracked] at h
          rcases hall : (pointers.map (repostate env)).all fun r => r.is_clean_tracked
            with _ | _
          · rw [hall] at h; simp at h
          · rw [hall] at h; simpa using h.symm
      · rw [recrepo_eq_ignore_dirty] at h
        simpa using h.symm
    rw [hrec, List.map_map]
    rfl
  · intro p _
    refine ⟨rfl, ?_, rfl, rfl, rfl, rfl, rfl⟩
    rw [to_record_keys]
    exact List.chain'_cons.mpr ⟨rfl, List.chain'_cons.mpr ⟨rfl,
      List.chain'_cons.mpr ⟨rfl, List.chain'_singleton _⟩⟩⟩

/-- Witness for C5: a run over one clean repository, with the theorem's
hypothesis discharged by evaluation. -/
theorem output_records_shape_witness :
    (["clean"].map (repostate envW)).map to_record =
        ["clean"].map (fun p => to_record (repostate envW p)) ∧
    ∀ p ∈ ["clean"],
      (to_record (repostate envW p)).map Prod.fst =
          ["is_clean", "is_clean_tracked", "revision", "toplevel"] ∧
      List.Chain' (fun a b => pyStrLt a b = true)
          ((to_record (repostate envW p)).map Prod.fst) ∧
      sortKeysRecord (to_record (repostate envW p)) = to_record (repostate envW p) ∧
      (to_record (repostate envW p)).lookup "is_clean" =
          some (JVal.bool (repostate envW p).is_clean) ∧
      (to_record (repostate envW p)).lookup "is_clean_tracked" =
          some (JVal.bool (repostate envW p).is_clean_tracked) ∧
      (to_record (repostate envW p)).lookup "revision" =
          some (JVal.str (repostate envW p).revision) ∧
      (to_record (repostate envW p)).lookup "toplevel" =
          some (JVal.str (repostate envW p).toplevel) :=
  output_records_shape envW ["clean"] false false
    ((["clean"].map (repostate envW)).map to_record) rfl

/-! ## C6: fatal path of `cli` -/

/-- C6: when the dirtiness policy rejects the run, `cli` exits with code
exactly 113, prints the rendered report to the error stream, and never
opens the output destination (no file is created or truncated). -/
theorem cli_dirty_outcome (env : GitEnv) (output : String) (pretty : Bool)
    (pointers : List String) (ignore_dirty ignore_untracked : Bool)
    (e : DirtyRepositories)
    (h : recrepo env pointers ignore_dirty ignore_untracked = Except.error e) :
    cli env output pretty pointers ignore_dirty ignore_untracked =
      { exitCode := DirtyRepositories.CODE
        stderrText := some e.str
        fileWritten := none } ∧
    DirtyRepositories.CODE = 113 := by
  refine ⟨?_, rfl⟩
  simp only [cli, h]

/-- Witness for C6: a strict run over one repository with a modified
tracked file, with the theorem's hypothesis discharged by evaluation. -/
theorem cli_dirty_outcome_witness :
    cli envW "recrepo.json" false ["tracked"] false false =
      { exitCode := DirtyRepositories.CODE
        stderrText := some (DirtyRepositories.str { repos := [repostate envW "tracked"] })
        fileWritten := none } ∧
    DirtyRepositories.CODE = 113 :=
  cli_dirty_outcome envW "recrepo.json" false ["tracked"] false false
    { repos := [repostate envW "tracked"] } rfl

/-! ## C8: inspector invariant -/

/-- C8: for every `RepoState` the inspector constructs, `is_clean = true`
implies `is_clean_tracked = true`, under the hypothesis that the
tracked-only status output is empty whenever the combined status output
is; moreover a non-empty combined status gives `is_clean = false` and an
empty tracked-only status gives `is_clean_tracked = true`, so a
repository with only untracked files has `is_clean = false` and
`is_clean_tracked = true`. -/
theorem repostate_clean_implies_clean_tracked (env : GitEnv) (p : String)
    (hsub : pyStrip (env p).status = "" → pyStrip (env p).statusTracked = "") :
    ((repostate env p).is_clean = true → (repostate env p).is_clean_tracked = true) ∧
    (pyStrip (env p).status ≠ "" → (repostate env p).is_clean = false) ∧
    (pyStrip (env p).statusTracked = "" → (repostate env p).is_clean_tracked = true) := by
  refine ⟨fun h => ?_, fun h => ?_, fun h => ?_⟩
  · simp only [repostate, beq_iff_eq] at h ⊢
    exact hsub h
  · simp only [repostate]
    simpa using h
  · simp only [repostate, beq_iff_eq]
    exact h

/-- Witness for C8: the repository with only an untracked file, with the
subset hypothesis discharged by evaluation. -/
theorem repostate_clean_implies_clean_tracked_witness :
    (pyStrip (envW "untracked").status = "" → pyStrip (envW "untracked").statusTracked = "") ∧
    (((repostate envW "untracked").is_clean = true →
        (repostate envW "untracked").is_clean_tracked = true) ∧
      (pyStrip (envW "untracked").status ≠ "" →
        (repostate envW "untracked").is_clean = false) ∧
      (pyStrip (envW "untracked").statusTracked = "" →
        (repostate envW "untracked").is_clean_tracked = true)) :=
  ⟨by decide, repostate_clean_implies_clean_tracked envW "untracked" (by decide)⟩

/-! ## C9: payload of the raised exception -/

/-- C9: every `DirtyRepositories` raised by `recrepo` carries the
`RepoState`s of all inspected repositories in input order — clean ones
included — so every input pointer was inspected and the filtering down to
offenders is left to the report rendering. -/
theorem error_payload_carries_all (env : GitEnv) (pointers : List String)
    (ignore_dirty ignore_untracked : Bool) (e : DirtyRepositories)
    (h : recrepo env pointers ignore_dirty ignore_untracked = Except.error e) :
    e.repos = pointers.map (repostate env) ∧
    e.repos.length = pointers.length ∧
    ∀ p ∈ pointers, repostate env p ∈ e.repos := by
  have hrepos : e.repos = pointers.map (repostate env) := by
    cases ignore_dirty
    · cases ignore_untracked
      · rw [recrepo_eq_strict] at h
        rcases hall : (pointers.map (repostate env)).all fun r => r.is_clean with _ | _
        · rw [hall] at h
          simp only [Bool.not_false, if_true, Except.error.injEq] at h
          rw [← h]
        · rw [hall] at h; simp at h
      · rw [recrepo_eq_ignore_untracked] at h
        rcases hall : (pointers.map (repostate env)).all fun r => r.is_clean_tracked
          with _ | _
        · rw [hall] at h
          simp only [Bool.not_false, if_true, Except.error.injEq] at h
          rw [← h]
        · rw [hall] at h; simp at h
    · rw [recrepo_eq_ignore_dirty] at h; simp at h
  refine ⟨hrepos, by rw [hrepos]; simp, fun p hp => ?_⟩
  rw [hrepos]
  exact List.mem_map.mpr ⟨p, hp, rfl⟩

/-- Witness for C9: a strict run over one clean and one dirty repository;
the payload holds both states, the clean one included. -/
theorem error_payload_carries_all_witness :
    DirtyRepositories.repos
        { repos := [repostate envW "clean", repostate envW "tracked"] } =
      ["clean", "tracked"].map (repostate envW) ∧
    (DirtyRepositories.repos
        { repos := [repostate envW "clean", repostate envW "tracked"] }).length =
      ["clean", "tracked"].length ∧
    ∀ p ∈ ["clean", "tracked"],
      repostate envW p ∈
        DirtyRepositories.repos
          { repos := [repostate envW "clean", repostate envW "tracked"] } :=
  error_payload_carries_all envW ["clean", "tracked"] false false
    { repos := [repostate envW "clean", repostate envW "tracked"] } rfl

/-! ## C7: the report rendering matches the spec's description -/

/-- A left fold whose body appends a per-element string to the
accumulator appends the concatenation of those strings. -/
theorem foldl_append_body {α : Type} (f : String → α → String) (g : α → String)
    (hfg : ∀ io x, f io x = io ++ g x) (l : List α) (io : String) :
    l.foldl f io = io ++ strConcat (l.map g) := by
  induction l generalizing io with
  | nil => simp [strConcat]
  | cons x xs ih =>
    rw [List.foldl_cons, hfg, ih, List.map_cons]
    simp only [strConcat, String.append_assoc]

/-- The status-line fold of the report prints one prefixed line per
status line. -/
theorem foldl_status_lines (st io : String) :
    (splitlines st).foldl (fun io l => printTo io ("|  " ++ " " ++ l)) io =
      io ++ strConcat ((splitlines st).map fun l => "|   " ++ l ++ "\n") :=
  foldl_append_body _ _ (fun io l => String.append_assoc io ("|   " ++ l) "\n")
    (splitlines st) io

/-- The print-buffer rendering over an arbitrary non-empty offender list
equals the block-structured report text the spec describes, for any
status selector. -/
theorem render_generic (stf : RepoState → String) (rs : List RepoState)
    (h : rs ≠ []) :
    printTo
        (rs.foldl
          (fun io r =>
            (splitlines (stf r)).foldl (fun io l => printTo io ("|  " ++ " " ++ l))
              (printTo (printTo io "") ("* " ++ r.toplevel ++ " @ " ++ r.revision)))
          (printTo ""
            (toString rs.length ++ " dirty " ++
              (if rs.length > 1 then "repositories" else "repository") ++ " found:")))
        "" ++ "Aborting..." =
      toString rs.length ++ " dirty " ++
        (if rs.length = 1 then "repository" else "repositories") ++ " found:\n" ++
      strConcat (rs.map fun r =>
        "\n" ++ "* " ++ r.toplevel ++ " @ " ++ r.revision ++ "\n" ++
          strConcat ((splitlines (stf r)).map fun l => "|   " ++ l ++ "\n")) ++
      "\n" ++ "Aborting..." := by
  have hbody : ∀ (io : String) (r : RepoState),
      (splitlines (stf r)).foldl (fun io l => printTo io ("|  " ++ " " ++ l))
          (printTo (printTo io "") ("* " ++ r.toplevel ++ " @ " ++ r.revision)) =
        io ++ ("\n" ++ "* " ++ r.toplevel ++ " @ " ++ r.revision ++ "\n" ++
          strConcat ((splitlines (stf r)).map fun l => "|   " ++ l ++ "\n")) := by
    intro io r
    rw [foldl_status_lines]
    simp only [printTo, String.append_empty, String.append_assoc]
  rw [foldl_append_body _ _ hbody rs]
  simp only [printTo, String.empty_append, String.append_empty, String.append_assoc]
  rcases rs with _ | ⟨a, tl⟩
  · exact absurd rfl h
  rcases tl with _ | ⟨b, tl⟩
  · rfl
  · rw [if_pos (by simp), if_neg (by simp)]
    rfl

/-- C7: the rendered failure report is exactly: a header line with the
count of offending repositories and the correctly pluralized noun, then
for each offending repository a blank line, a line
`* <toplevel> @ <revision>`, and each line of its status text indented
and prefixed, then a trailing blank line and `Aborting...` with no
trailing newline — as captured by `specReport`. -/
theorem report_matches_spec (e : DirtyRepositories)
    (h : (if e.tracked then e.repos.filter (fun r => !r.is_clean_tracked)
          else e.repos.filter (fun r => !r.is_clean)) ≠ []) :
    DirtyRepositories.str e = specReport e.tracked e.repos := by
  obtain ⟨repos, tracked⟩ := e
  cases tracked
  · exact render_generic (fun r => r.status)
      (repos.filter fun r => !r.is_clean) (by simpa using h)
  · exact render_generic (fun r => r.status_tracked)
      (repos.filter fun r => !r.is_clean_tracked) (by simpa using h)

/-- Witness for C7: the report for a single repository with a modified
tracked file, the non-emptiness hypothesis discharged by evaluation. -/
theorem report_matches_spec_witness :
    DirtyRepositories.str { repos := [repostate envW "tracked"] } =
      specReport false [repostate envW "tracked"] :=
  report_matches_spec { repos := [repostate envW "tracked"] } (by decide)

/-! ## C1: what the ignore-untracked failure report actually shows -/

/-- C1 (evaluation at the failing input): the ignore-untracked branch of
`recrepo` raises `DirtyRepositories(repos)` with `tracked` left at its
default `false`, so the rendered report filters by `is_clean` — not by
the active predicate `is_clean_tracked` — and shows the combined status
text.  For one repository with only an untracked file (which satisfies
`is_clean_tracked = true`) and one with a modified tracked file, the
report says "2 dirty repositories found:" and lists both, the
only-untracked repository included, with combined status texts. -/
theorem ignore_untracked_report_shows_combined :
    recrepo envW ["untracked", "tracked"] false true =
      Except.error
        { repos := [repostate envW "untracked", repostate envW "tracked"]
          tracked := false } ∧
    (repostate envW "untracked").is_clean_tracked = true ∧
    DirtyRepositories.str
        { repos := [repostate envW "untracked", repostate envW "tracked"]
          tracked := false } =
      "2 dirty repositories found:\n\n* /repo/untracked @ 2222222222222222222222222222222222222222\n|   ?? spam\n\n* /repo/tracked @ 3333333333333333333333333333333333333333\n|    M file\n\nAborting..." :=
  ⟨rfl, rfl, rfl⟩

end Recrepo
